import Mathlib

/-!
Verification of the iGritty game-train scheduling subsystem.

Shallow embedding of the repository's Python sources:
  * `src/iGritty/common/utils.py`   — `StrEnum` recurrence resolution
  * `src/iGritty/common/db_utils.py`— datetime adapters/converters
  * `src/iGritty/db.py`             — `iGrittyDB` (sqlite-backed store)
  * `src/iGritty/cogs/game_train_scheduler.py` — `GameTrainScheduler`

Machine conventions: Python `datetime.datetime` (naive) is a record of
seven `Nat` fields compared field-lexicographically, exactly as CPython
compares naive datetimes.  The sqlite store is a list of rows; the
`departure_datetime` column holds the adapted value (the ISO-8601 text the
last-registered adapter produces), and `ORDER BY departure_datetime ASC`
is byte-wise (BINARY collation) comparison of that text.  SQL `LIKE` is
modelled with SQLite's semantics: ASCII case-insensitive, `%` matching any
run, `_` matching one character.  Python exceptions are `Except` values;
day-of-month validity is abstracted to `day ≤ 31`.
-/

/-- Python exceptions raised by the embedded code paths. -/
inductive PyError where
  | typeError
  | valueError
  | keyError
  deriving DecidableEq, Repr

/-- Naive Python `datetime.datetime`: year, month, day, hour, minute, second,
microsecond. -/
structure PyDateTime where
  year : Nat
  month : Nat
  day : Nat
  hour : Nat
  minute : Nat
  second : Nat
  microsecond : Nat
  deriving DecidableEq, Repr

/-- Field bounds of a constructible `datetime.datetime` (day-of-month
granularity abstracted to 31). -/
def PyDateTime.Valid (t : PyDateTime) : Prop :=
  1 ≤ t.year ∧ t.year ≤ 9999 ∧ 1 ≤ t.month ∧ t.month ≤ 12 ∧ 1 ≤ t.day ∧ t.day ≤ 31 ∧
    t.hour ≤ 23 ∧ t.minute ≤ 59 ∧ t.second ≤ 59 ∧ t.microsecond ≤ 999999

instance (t : PyDateTime) : Decidable t.Valid := by
  unfold PyDateTime.Valid; infer_instance

/-- CPython compares naive datetimes by comparing the tuple of their
fields lexicographically. -/
def PyDateTime.cmp (a b : PyDateTime) : Ordering :=
  (compare a.year b.year).then
    ((compare a.month b.month).then
      ((compare a.day b.day).then
        ((compare a.hour b.hour).then
          ((compare a.minute b.minute).then
            ((compare a.second b.second).then
              (compare a.microsecond b.microsecond))))))

/-- The ASCII digit character for `n % 10`. -/
def digitChar (n : Nat) : Char := Char.ofNat (48 + n % 10)

/-- `padDigits k n`: the `k`-character zero-padded decimal rendering of `n`
(most significant digit first), as Python's `"%0kd" % n` for `n < 10^k`. -/
def padDigits : Nat → Nat → List Char
  | 0, _ => []
  | k + 1, n => digitChar (n / 10 ^ k) :: padDigits k (n % 10 ^ k)

/-- `datetime.isoformat()` (db_utils.adapt_datetime_iso): fixed-width
`YYYY-MM-DDTHH:MM:SS`, plus `.ffffff` exactly when the microsecond field is
nonzero. -/
def PyDateTime.isoChars (t : PyDateTime) : List Char :=
  padDigits 4 t.year ++ '-' ::
    (padDigits 2 t.month ++ '-' ::
      (padDigits 2 t.day ++ 'T' ::
        (padDigits 2 t.hour ++ ':' ::
          (padDigits 2 t.minute ++ ':' ::
            (padDigits 2 t.second ++
              (if t.microsecond = 0 then [] else '.' :: padDigits 6 t.microsecond))))))

/-- db_utils.adapt_datetime_iso: the adapter the store applies on insert
(the last `register_adapter` call for `datetime.datetime` wins, so the
epoch adapter registered just before it is dead). -/
def adapt_datetime_iso (t : PyDateTime) : String := ⟨t.isoChars⟩

/-- Read exactly `k` decimal digits, most significant first, onto an
accumulator. -/
def takeDigitsAux : Nat → Nat → List Char → Option (Nat × List Char)
  | 0, acc, cs => some (acc, cs)
  | k + 1, acc, c :: cs =>
    if c.isDigit then takeDigitsAux k (acc * 10 + (c.toNat - 48)) cs else none
  | _ + 1, _, [] => none

def takeDigits (k : Nat) (cs : List Char) : Option (Nat × List Char) :=
  takeDigitsAux k 0 cs

/-- Consume one expected character. -/
def expectChar (c : Char) : List Char → Option (List Char)
  | d :: ds => if d = c then some ds else none
  | [] => none

/-- db_utils.convert_datetime, i.e. `datetime.fromisoformat` on the store's
bytes: fixed-position `YYYY-MM-DD?HH:MM:SS[.fff[fff]]` with a one-character
date/time separator, validating field ranges as the datetime constructor
does (day-of-month abstracted to 31). -/
def convert_datetime (s : String) : Option PyDateTime := do
  let cs := s.data
  let (y, cs) ← takeDigits 4 cs
  let cs ← expectChar '-' cs
  let (mo, cs) ← takeDigits 2 cs
  let cs ← expectChar '-' cs
  let (d, cs) ← takeDigits 2 cs
  match cs with
  | [] => none
  | _sep :: cs => do
    let (h, cs) ← takeDigits 2 cs
    let cs ← expectChar ':' cs
    let (mi, cs) ← takeDigits 2 cs
    let cs ← expectChar ':' cs
    let (sec, cs) ← takeDigits 2 cs
    let (us, cs) ←
      match cs with
      | [] => some (0, ([] : List Char))
      | '.' :: rest =>
        match takeDigits 6 rest with
        | some (frac, rest) => some (frac, rest)
        | none =>
          match takeDigits 3 rest with
          | some (frac, rest) => some (frac * 1000, rest)
          | none => none
      | _ => none
    if cs = [] then
      let t : PyDateTime := ⟨y, mo, d, h, mi, sec, us⟩
      if t.Valid then some t else none
    else
      none

/-- SQLite LIKE's case folding: ASCII letters only. -/
def charFold (c : Char) : Char := c.toLower

/-- Does `f` hold of some suffix of the text (including the full text and
the empty suffix)? -/
def anySuffix (f : List Char → Bool) : List Char → Bool
  | [] => f []
  | c :: cs => f (c :: cs) || anySuffix f cs

/-- SQLite `LIKE` (no ESCAPE clause): `%` matches any run of characters,
`_` matches exactly one, everything else matches itself up to ASCII case.
First argument is the pattern, second the text. -/
def likeMatch : List Char → List Char → Bool
  | [], t => t.isEmpty
  | '%' :: ps, t => anySuffix (fun s => likeMatch ps s) t
  | '_' :: ps, t =>
    match t with
    | [] => false
    | _ :: ts => likeMatch ps ts
  | p :: ps, t =>
    match t with
    | [] => false
    | c :: ts => (charFold p = charFold c) && likeMatch ps ts

/-- BINARY-collation comparison of TEXT values, byte by byte (the stored
ISO datetimes are ASCII, so char-wise equals byte-wise). -/
def cmpChars : List Char → List Char → Ordering
  | [], [] => .eq
  | [], _ :: _ => .lt
  | _ :: _, [] => .gt
  | c :: cs, d :: ds =>
    match compare c.toNat d.toNat with
    | .eq => cmpChars cs ds
    | o => o

/-- common/utils.py `SupportedTrainRecurrance`: a `StrEnum` whose member
values equal the member names. -/
inductive SupportedTrainRecurrance where
  | ONCE
  | WEEKLY
  | DAILY
  deriving DecidableEq, Repr

/-- The member's name, which by `_generate_next_value_` is also its value. -/
def SupportedTrainRecurrance.name : SupportedTrainRecurrance → String
  | .ONCE => "ONCE"
  | .WEEKLY => "WEEKLY"
  | .DAILY => "DAILY"

/-- Python `str.lower` restricted to ASCII (the enum names are ASCII). -/
def pyLower (s : String) : String := ⟨s.data.map Char.toLower⟩

/-- `SupportedTrainRecurrance(value)` on a string: the by-value lookup of
`Enum.__call__`, then `StrEnum._missing_`, which retries each member name
case-insensitively and otherwise falls through to `None`, making the enum
call raise `ValueError`. -/
def recurranceFromString (s : String) : Option SupportedTrainRecurrance :=
  if s = "ONCE" then some .ONCE
  else if s = "WEEKLY" then some .WEEKLY
  else if s = "DAILY" then some .DAILY
  else if pyLower s = pyLower "ONCE" then some .ONCE
  else if pyLower s = pyLower "WEEKLY" then some .WEEKLY
  else if pyLower s = pyLower "DAILY" then some .DAILY
  else none

/-- One row of the `scheduled_game_trains` table.  `departure` holds the
adapted value actually stored in the `departure_datetime` column: the
ISO-8601 text `adapt_datetime_iso` produced on insert. -/
structure TrainRow where
  id : Nat
  game : Option String
  channel_name : String
  departure : String
  recurrance : String
  deriving DecidableEq, Repr

/-- One row of the `text_channels` lookup table: rowid, channel_id,
channel_name. -/
structure ChannelRow where
  rowid : Nat
  channel_id : Nat
  channel_name : String
  deriving DecidableEq, Repr

/-- The sqlite database: the scheduled-trains table, the text-channel
lookup table, and the AUTOINCREMENT counters. -/
structure DB where
  rows : List TrainRow
  nextId : Nat
  textChannels : List ChannelRow
  nextChannelRowid : Nat
  deriving DecidableEq, Repr

/-- A train tuple as `iGrittyDB.get_trains` returns it: `PARSE_DECLTYPES`
runs `convert_datetime` on the `departure_datetime` column (a failed
conversion is a raised exception, modelled as `none`). -/
structure FetchedRow where
  id : Nat
  game : Option String
  channel_name : String
  departure : Option PyDateTime
  recurrance : String
  deriving DecidableEq, Repr

def decodeRow (r : TrainRow) : FetchedRow :=
  ⟨r.id, r.game, r.channel_name, convert_datetime r.departure, r.recurrance⟩

/-- `ORDER BY departure_datetime ASC`: rows keyed by the stored text under
BINARY collation. -/
def rowLe (a b : TrainRow) : Prop :=
  cmpChars a.departure.data b.departure.data ≠ Ordering.gt

instance rowLe.decRel : DecidableRel rowLe := fun a b => by
  unfold rowLe; infer_instance

/-- The WHERE pattern `get_trains` binds: the channel name when the Python
value is truthy, else `"%"` (so `None` and the empty string both select
everything). -/
def trainsPattern : Option String → List Char
  | none => ['%']
  | some s => if s.isEmpty then ['%'] else s.data

/-- `iGrittyDB.get_trains(channel_name)`: SELECT the train rows whose
`channel_name` column is LIKE the bound pattern, ordered by the stored
departure text ascending, each row's datetime column converted. -/
def get_trains (db : DB) (channel_name : Option String) : List FetchedRow :=
  (List.insertionSort rowLe
      (db.rows.filter fun r => likeMatch (trainsPattern channel_name) r.channel_name.data)).map
    decodeRow

/-- A Python value passed as `train_id`, as far as `remove_train`'s
`isinstance(train_id, int)` check observes it. -/
inductive PyVal where
  | int (n : Nat)
  | str (s : String)
  | pynone
  deriving DecidableEq, Repr

/-- `iGrittyDB.remove_train`: `TypeError` for a non-integer id; otherwise
delete the row if a row with that id exists, else `ValueError`.  Returns
the result and the store afterwards. -/
def remove_train (db : DB) (train_id : PyVal) : Except PyError Unit × DB :=
  match train_id with
  | .int n =>
    if (db.rows.filter fun r => r.id = n) ≠ [] then
      (.ok (), { db with rows := db.rows.filter fun r => ¬r.id = n })
    else
      (.error .valueError, db)
  | _ => (.error .typeError, db)

/-- `iGrittyDB.add_train_to_table`: resolve the recurrence (raising
`ValueError` before the store connection is opened), then insert the
adapted datetime and return `lastrowid`. -/
def add_train_to_table (db : DB) (game : Option String) (channel_name : String)
    (departure_time : PyDateTime) (recurrance : String) : Except PyError Nat × DB :=
  match recurranceFromString recurrance with
  | none => (.error .valueError, db)
  | some rec =>
    (.ok db.nextId,
      { db with
        rows := db.rows ++
          [⟨db.nextId, game, channel_name, adapt_datetime_iso departure_time, rec.name⟩],
        nextId := db.nextId + 1 })

/-- `iGrittyDB.add_channel_to_table("text", id, name)`: plain insert, no
dedupe. -/
def add_channel_to_table (db : DB) (channel_id : Nat) (channel_name : String) : DB :=
  { db with
    textChannels := db.textChannels ++ [⟨db.nextChannelRowid, channel_id, channel_name⟩],
    nextChannelRowid := db.nextChannelRowid + 1 }

/-- `iGrittyDB.get_id_for_channel("text", name)`: `fetchone` on
`channel_name like ?`, i.e. the first LIKE-matching row in table order;
`None` when there is none. -/
def get_id_for_channel (db : DB) (channel_name : String) : Option Nat :=
  match db.textChannels.filter fun r => likeMatch channel_name.data r.channel_name.data with
  | [] => none
  | r :: _ => some r.channel_id

/-- Lifecycle of an `asyncio` task armed for a train. -/
inductive TaskState where
  | pending
  | cancelled
  | taskDone
  deriving DecidableEq, Repr

/-- One entry of `GameTrainScheduler._scheduled_train_tasks`: the
`run_train_at_time` task's captured arguments and, when
`add_done_callback` was called on it, the completion callback's captured
`(train_id, recurrance)`. -/
structure ArmedTask where
  game : Option String
  start_time : PyDateTime
  channel_id : Option Nat
  status : TaskState
  callback : Option (Nat × String)
  deriving DecidableEq, Repr

/-- The scheduler's mutable state: the database and the task registry
dict. -/
structure SchedState where
  db : DB
  tasks : List (Nat × ArmedTask)
  deriving DecidableEq, Repr

/-- `dict.get` / `dict.__getitem__` presence. -/
def dictLookup (k : Nat) : List (Nat × ArmedTask) → Option ArmedTask
  | [] => none
  | (k', v) :: m => if k' = k then some v else dictLookup k m

/-- `dict.__setitem__`: replace the binding if present, else append. -/
def dictInsert (k : Nat) (v : ArmedTask) : List (Nat × ArmedTask) → List (Nat × ArmedTask)
  | [] => [(k, v)]
  | (k', v') :: m => if k' = k then (k, v) :: m else (k', v') :: dictInsert k v m

/-- `dict.pop k` after a successful membership check: drop the binding. -/
def dictPop (k : Nat) : List (Nat × ArmedTask) → List (Nat × ArmedTask)
  | [] => []
  | (k', v') :: m => if k' = k then m else (k', v') :: dictPop k m

/-- `_train_completion_callback_factory`'s inner callback: pop the train
id from the registry (`dict.pop` with no default raises `KeyError` when
the id is absent) and, when the captured recurrence is `ONCE`, remove the
row from the database. -/
def train_completion_callback (train_id : Nat) (recurrance : String) (st : SchedState) :
    Except PyError Unit × SchedState :=
  match dictLookup train_id st.tasks with
  | none => (.error .keyError, st)
  | some _ =>
    let st1 : SchedState := { st with tasks := dictPop train_id st.tasks }
    if recurrance = "ONCE" then
      let (r, db') := remove_train st1.db (.int train_id)
      (r, { st1 with db := db' })
    else
      (.ok (), st1)

/-- The armed task for `train_id` finishes its coroutine; asyncio marks it
done and invokes its attached done callbacks, if any. -/
def completeTask (train_id : Nat) (st : SchedState) : Except PyError Unit × SchedState :=
  match dictLookup train_id st.tasks with
  | none => (.ok (), st)
  | some task =>
    let st1 : SchedState :=
      { st with tasks := dictInsert train_id { task with status := .taskDone } st.tasks }
    match task.callback with
    | some (tid, rc) => train_completion_callback tid rc st1
    | none => (.ok (), st1)

/-- Outcome `cancel_train` reports to the channel. -/
inductive CancelOutcome where
  | removed (train_id : Nat)
  | notFound (train_id : Nat)
  deriving DecidableEq, Repr

/-- `GameTrainScheduler.cancel_train`: if the id is in the live registry,
cancel the task and remove the row from the store (the registry binding
itself is left in place); otherwise report not-found and touch nothing. -/
def cancel_train (train_id : Nat) (st : SchedState) : Except PyError CancelOutcome × SchedState :=
  match dictLookup train_id st.tasks with
  | some task =>
    let task' := if task.status = .pending then { task with status := .cancelled } else task
    let st1 : SchedState := { st with tasks := dictInsert train_id task' st.tasks }
    let (r, db') := remove_train st1.db (.int train_id)
    match r with
    | .ok _ => (.ok (.removed train_id), { st1 with db := db' })
    | .error e => (.error e, { st1 with db := db' })
  | none => (.ok (.notFound train_id), st)

/-- One iteration of `_load_scheduled_trains`'s loop over the fetched
trains.  A past `ONCE` train is deleted; a past recurring train is
skipped; otherwise a task is armed.  The `DAILY` adjustment
`departure_datetime.replace(year=.., month=.., day=..)` is evaluated and
its result discarded, exactly as in the source, so the armed task still
waits for the stored time. -/
def loadOneTrain (now : PyDateTime) (st : SchedState) (row : FetchedRow) :
    Except PyError SchedState :=
  match row.departure with
  | none => .error .valueError
  | some dep =>
    if PyDateTime.cmp dep now = .lt then
      if row.recurrance = "ONCE" then
        let (r, db') := remove_train st.db (.int row.id)
        match r with
        | .ok _ => .ok { st with db := db' }
        | .error e => .error e
      else
        .ok st
    else
      let _rolled :=
        if row.recurrance = "DAILY" then
          { dep with year := now.year, month := now.month, day := now.day }
        else dep
      let channel_id := get_id_for_channel st.db row.channel_name
      let task : ArmedTask := ⟨row.game, dep, channel_id, .pending, some (row.id, row.recurrance)⟩
      .ok { st with tasks := dictInsert row.id task st.tasks }

def loadTrainsFrom (now : PyDateTime) : SchedState → List FetchedRow → Except PyError SchedState
  | st, [] => .ok st
  | st, row :: rest =>
    match loadOneTrain now st row with
    | .ok st' => loadTrainsFrom now st' rest
    | .error e => .error e

/-- `GameTrainScheduler._load_scheduled_trains`: fetch every train (a row
whose stored text the converter rejects raises during the fetch, before
any loop iteration) and process each in departure order. -/
def load_scheduled_trains (now : PyDateTime) (st : SchedState) : Except PyError SchedState :=
  let rows := get_trains st.db none
  if rows.all fun r => r.departure.isSome then loadTrainsFrom now st rows
  else .error .valueError

/-- `datetime.strptime(time_str, "%H:%M")` on the zero-padded form:
defaults the date to 1900-01-01. -/
def strptime_HM (s : String) : Option PyDateTime := do
  let (h, cs) ← takeDigits 2 s.data
  let cs ← expectChar ':' cs
  let (mi, cs) ← takeDigits 2 cs
  if cs = [] ∧ h ≤ 23 ∧ mi ≤ 59 then some ⟨1900, 1, 1, h, mi, 0, 0⟩ else none

/-- `datetime.strptime(date_str, "%d/%m/%Y")` on the zero-padded form. -/
def strptime_DMY (s : String) : Option PyDateTime := do
  let (d, cs) ← takeDigits 2 s.data
  let cs ← expectChar '/' cs
  let (mo, cs) ← takeDigits 2 cs
  let cs ← expectChar '/' cs
  let (y, cs) ← takeDigits 4 cs
  if cs = [] ∧ 1 ≤ mo ∧ mo ≤ 12 ∧ 1 ≤ d ∧ d ≤ 31 ∧ 1 ≤ y then
    some ⟨y, mo, d, 0, 0, 0, 0⟩
  else
    none

/-- The messages `schedule_train` sends to the invoking channel. -/
inductive Msg where
  | cannotSchedulePast (runTime : PyDateTime)
  | allSet (runTime : PyDateTime) (recurrance : SupportedTrainRecurrance)
  deriving DecidableEq, Repr

/-- `GameTrainScheduler.schedule_train` for a command invoked without an
explicit channel argument (`channel = ctx.channel`).  Mirrors the source's
control flow: resolving the recurrence or parsing a time can raise; a
run time in the past sends an error message to the caller but the
function falls through and still creates the task, inserts the row and
registers the task under the returned row id. -/
def schedule_train (now : PyDateTime) (ctxChannelId : Nat) (ctxChannelName : String)
    (time_str : String) (game : Option String) (recurrance : String) (date_str : Option String)
    (st : SchedState) : Except PyError (List Msg × Nat × SchedState) :=
  match recurranceFromString recurrance with
  | none => .error .valueError
  | some rc =>
    let dateRes : Except PyError PyDateTime :=
      match date_str with
      | none => .ok now
      | some ds =>
        match strptime_DMY ds with
        | some d => .ok d
        | none => .error .valueError
    match dateRes with
    | .error e => .error e
    | .ok date =>
      match strptime_HM time_str with
      | none => .error .valueError
      | some t0 =>
        let run_time : PyDateTime :=
          { t0 with year := date.year, month := date.month, day := date.day }
        let pastMsgs :=
          if PyDateTime.cmp run_time now = .lt then [Msg.cannotSchedulePast run_time] else []
        let task : ArmedTask := ⟨game, run_time, some ctxChannelId, .pending, none⟩
        match add_train_to_table st.db game ctxChannelName run_time rc.name with
        | (.ok train_id, db1) =>
          let tasks1 := dictInsert train_id task st.tasks
          let db2 := add_channel_to_table db1 ctxChannelId ctxChannelName
          .ok (pastMsgs ++ [Msg.allSet run_time rc], train_id, ⟨db2, tasks1⟩)
        | (.error e, _) => .error e

/-- Well-formed store: row ids are pairwise distinct and every stored
departure text was produced by the adapter from a constructible
datetime. -/
def DB.WF (db : DB) : Prop :=
  db.rows.Pairwise (fun a b => a.id ≠ b.id) ∧
    ∀ r ∈ db.rows, ∃ t, t.Valid ∧ r.departure = adapt_datetime_iso t

/-- Fetched rows in ascending fire-time order (all departures decode under
a well-formed store). -/
def depLe (a b : FetchedRow) : Prop :=
  match a.departure, b.departure with
  | some x, some y => PyDateTime.cmp x y ≠ Ordering.gt
  | _, _ => True

/-- A fetched row whose `_load_scheduled_trains` iteration cannot touch the
stored row with id `i` or the registry key `i`: either it carries another
id, or it is a past recurring train, whose iteration is a pure skip. -/
def StepSafe (now : PyDateTime) (i : Nat) (row : FetchedRow) : Prop :=
  row.id ≠ i ∨ ∃ dep, row.departure = some dep ∧ PyDateTime.cmp dep now = .lt ∧
    row.recurrance ≠ "ONCE"


/-! ### Decimal padding: printing and parsing -/

theorem digitChar_spec : ∀ d < 10, (digitChar d).isDigit = true ∧ (digitChar d).toNat = 48 + d := by
  decide

theorem padDigits_length (k n : Nat) : (padDigits k n).length = k := by
  induction k generalizing n with
  | zero => rfl
  | succ k ih => simp [padDigits, ih]

theorem takeDigitsAux_pad (k : Nat) :
    ∀ n acc rest, n < 10 ^ k →
      takeDigitsAux k acc (padDigits k n ++ rest) = some (acc * 10 ^ k + n, rest) := by
  induction k with
  | zero =>
    intro n acc rest hn
    interval_cases n
    simp [padDigits, takeDigitsAux]
  | succ k ih =>
    intro n acc rest hn
    have hq : n / 10 ^ k < 10 := by
      rw [Nat.div_lt_iff_lt_mul (Nat.pos_pow_of_pos k (by norm_num))]
      calc n < 10 ^ (k + 1) := hn
        _ = 10 ^ k * 10 := by rw [pow_succ]
        _ ≤ 10 * 10 ^ k := by rw [Nat.mul_comm]
    have hdig := digitChar_spec (n / 10 ^ k) hq
    have hr : n % 10 ^ k < 10 ^ k := Nat.mod_lt _ (Nat.pos_pow_of_pos k (by norm_num))
    rw [padDigits]
    simp only [List.cons_append, takeDigitsAux, hdig.1, if_true, List.append_eq]
    rw [hdig.2, Nat.add_sub_cancel_left, ih _ _ _ hr]
    congr 2
    have hdm := Nat.div_add_mod n (10 ^ k)
    rw [pow_succ]
    nlinarith [hdm]

theorem takeDigits_pad (k n : Nat) (rest : List Char) (hn : n < 10 ^ k) :
    takeDigits k (padDigits k n ++ rest) = some (n, rest) := by
  rw [takeDigits, takeDigitsAux_pad k n 0 rest hn, Nat.zero_mul, Nat.zero_add]

theorem expectChar_cons_self (c : Char) (r : List Char) : expectChar c (c :: r) = some r := by
  simp [expectChar]

set_option maxHeartbeats 1000000 in
/-- The store's datetime round-trip: the converter inverts the adapter on
every constructible datetime, fractional seconds included. -/
theorem iso_roundtrip (t : PyDateTime) (h : t.Valid) :
    convert_datetime (adapt_datetime_iso t) = some t := by
  obtain ⟨y, mo, d, hr, mi, s, us⟩ := t
  obtain ⟨h1, h2, h3, h4, h5, h6, h7, h8, h9, h10⟩ := h
  simp only at h1 h2 h3 h4 h5 h6 h7 h8 h9 h10
  have py : ∀ r, takeDigits 4 (padDigits 4 y ++ r) = some (y, r) :=
    fun r => takeDigits_pad 4 y r (by omega)
  have pmo : ∀ r, takeDigits 2 (padDigits 2 mo ++ r) = some (mo, r) :=
    fun r => takeDigits_pad 2 mo r (by omega)
  have pd : ∀ r, takeDigits 2 (padDigits 2 d ++ r) = some (d, r) :=
    fun r => takeDigits_pad 2 d r (by omega)
  have ph : ∀ r, takeDigits 2 (padDigits 2 hr ++ r) = some (hr, r) :=
    fun r => takeDigits_pad 2 hr r (by omega)
  have pmi : ∀ r, takeDigits 2 (padDigits 2 mi ++ r) = some (mi, r) :=
    fun r => takeDigits_pad 2 mi r (by omega)
  have ps : ∀ r, takeDigits 2 (padDigits 2 s ++ r) = some (s, r) :=
    fun r => takeDigits_pad 2 s r (by omega)
  by_cases hus0 : us = 0
  · subst hus0
    show convert_datetime ⟨PyDateTime.isoChars ⟨y, mo, d, hr, mi, s, 0⟩⟩ = _
    rw [convert_datetime]
    simp only [PyDateTime.isoChars, if_pos rfl, List.append_nil]
    simp only [py, pmo, pd, ph, pmi, ps, expectChar_cons_self, Option.bind_eq_bind,
      Option.some_bind]
    simp only [if_true]
    rw [if_pos]
    exact ⟨h1, h2, h3, h4, h5, h6, h7, h8, h9, by simp⟩
  · have pus : takeDigits 6 (padDigits 6 us) = some (us, []) := by
      have h := takeDigits_pad 6 us [] (by omega)
      rwa [List.append_nil] at h
    show convert_datetime ⟨PyDateTime.isoChars ⟨y, mo, d, hr, mi, s, us⟩⟩ = _
    rw [convert_datetime]
    simp only [PyDateTime.isoChars, if_neg hus0]
    simp only [py, pmo, pd, ph, pmi, ps, pus, expectChar_cons_self, Option.bind_eq_bind,
      Option.some_bind]
    simp only [if_true]
    rw [if_pos]
    exact ⟨h1, h2, h3, h4, h5, h6, h7, h8, h9, h10⟩

/-! ### BINARY text order versus chronological order -/

theorem nat_compare_add_left (c a b : Nat) : compare (c + a) (c + b) = compare a b := by
  rcases Nat.lt_trichotomy a b with h | h | h
  · rw [Nat.compare_eq_lt.2 h, Nat.compare_eq_lt.2 (by omega)]
  · subst h
    rw [Nat.compare_eq_eq.2 rfl, Nat.compare_eq_eq.2 rfl]
  · rw [Nat.compare_eq_gt.2 h, Nat.compare_eq_gt.2 (by omega)]

theorem lt_of_div_lt_div {c m n : Nat} (h : m / c < n / c) : m < n := by
  by_contra hmn
  push_neg at hmn
  exact absurd (Nat.div_le_div_right hmn) (Nat.not_le.2 h)

theorem nat_compare_div_mod (c m n : Nat) :
    compare m n = (compare (m / c) (n / c)).then (compare (m % c) (n % c)) := by
  rcases Nat.lt_trichotomy (m / c) (n / c) with h | h | h
  · rw [Nat.compare_eq_lt.2 h, Nat.compare_eq_lt.2 (lt_of_div_lt_div h)]
    rfl
  · have hm := Nat.div_add_mod m c
    have hn := Nat.div_add_mod n c
    calc compare m n = compare (c * (m / c) + m % c) (c * (n / c) + n % c) := by rw [hm, hn]
      _ = compare (m % c) (n % c) := by rw [h]; exact nat_compare_add_left _ _ _
      _ = (compare (m / c) (n / c)).then (compare (m % c) (n % c)) := by
          rw [Nat.compare_eq_eq.2 h]
          rfl
  · rw [Nat.compare_eq_gt.2 h, Nat.compare_eq_gt.2 (lt_of_div_lt_div h)]
    rfl

theorem cmpChars_pad (k : Nat) :
    ∀ m n r1 r2, m < 10 ^ k → n < 10 ^ k →
      cmpChars (padDigits k m ++ r1) (padDigits k n ++ r2) =
        (compare m n).then (cmpChars r1 r2) := by
  induction k with
  | zero =>
    intro m n r1 r2 hm hn
    interval_cases m
    interval_cases n
    simp only [padDigits, List.nil_append]
    rw [show compare (0 : Nat) 0 = Ordering.eq from Nat.compare_eq_eq.2 rfl]
    rfl
  | succ k ih =>
    intro m n r1 r2 hm hn
    have hpow : (0 : Nat) < 10 ^ k := Nat.pos_pow_of_pos k (by norm_num)
    have hqm : m / 10 ^ k < 10 := by
      rw [Nat.div_lt_iff_lt_mul hpow]
      calc m < 10 ^ (k + 1) := hm
        _ = 10 ^ k * 10 := by rw [pow_succ]
        _ ≤ 10 * 10 ^ k := by rw [Nat.mul_comm]
    have hqn : n / 10 ^ k < 10 := by
      rw [Nat.div_lt_iff_lt_mul hpow]
      calc n < 10 ^ (k + 1) := hn
        _ = 10 ^ k * 10 := by rw [pow_succ]
        _ ≤ 10 * 10 ^ k := by rw [Nat.mul_comm]
    have hdm := digitChar_spec (m / 10 ^ k) hqm
    have hdn := digitChar_spec (n / 10 ^ k) hqn
    rw [padDigits, padDigits, List.cons_append, List.cons_append]
    simp only [cmpChars]
    rw [hdm.2, hdn.2, nat_compare_add_left,
      ih _ _ _ _ (Nat.mod_lt _ hpow) (Nat.mod_lt _ hpow),
      nat_compare_div_mod (10 ^ k) m n]
    rcases compare (m / 10 ^ k) (n / 10 ^ k) <;> rfl

theorem cmpChars_cons_same (c : Char) (r1 r2 : List Char) :
    cmpChars (c :: r1) (c :: r2) = cmpChars r1 r2 := by
  simp only [cmpChars]
  rw [Nat.compare_eq_eq.2 rfl]

theorem cmpChars_microTail (a b : Nat) (ha : a ≤ 999999) (hb : b ≤ 999999) :
    cmpChars (if a = 0 then [] else '.' :: padDigits 6 a)
        (if b = 0 then [] else '.' :: padDigits 6 b) = compare a b := by
  by_cases h1 : a = 0 <;> by_cases h2 : b = 0
  · subst h1
    subst h2
    rfl
  · subst h1
    rw [if_pos rfl, if_neg h2, Nat.compare_eq_lt.2 (Nat.pos_of_ne_zero h2)]
    rfl
  · subst h2
    rw [if_neg h1, if_pos rfl, Nat.compare_eq_gt.2 (Nat.pos_of_ne_zero h1)]
    rfl
  · rw [if_neg h1, if_neg h2, cmpChars_cons_same,
      ← List.append_nil (padDigits 6 a), ← List.append_nil (padDigits 6 b),
      cmpChars_pad 6 a b [] [] (by omega) (by omega)]
    rcases compare a b <;> rfl

/-- The BINARY-collation order on the adapter's ISO text coincides with
CPython's chronological comparison of the datetimes. -/
theorem iso_cmp (a b : PyDateTime) (ha : a.Valid) (hb : b.Valid) :
    cmpChars a.isoChars b.isoChars = PyDateTime.cmp a b := by
  obtain ⟨y1, mo1, d1, hr1, mi1, s1, us1⟩ := a
  obtain ⟨y2, mo2, d2, hr2, mi2, s2, us2⟩ := b
  obtain ⟨a1, a2, a3, a4, a5, a6, a7, a8, a9, a10⟩ := ha
  obtain ⟨b1, b2, b3, b4, b5, b6, b7, b8, b9, b10⟩ := hb
  simp only at a1 a2 a3 a4 a5 a6 a7 a8 a9 a10 b1 b2 b3 b4 b5 b6 b7 b8 b9 b10
  simp only [PyDateTime.isoChars]
  rw [cmpChars_pad 4 _ _ _ _ (by omega) (by omega), cmpChars_cons_same,
    cmpChars_pad 2 _ _ _ _ (by omega) (by omega), cmpChars_cons_same,
    cmpChars_pad 2 _ _ _ _ (by omega) (by omega), cmpChars_cons_same,
    cmpChars_pad 2 _ _ _ _ (by omega) (by omega), cmpChars_cons_same,
    cmpChars_pad 2 _ _ _ _ (by omega) (by omega), cmpChars_cons_same,
    cmpChars_pad 2 _ _ _ _ (by omega) (by omega),
    cmpChars_microTail us1 us2 (by omega) (by omega)]
  rfl

theorem nat_compare_swap (a b : Nat) : compare b a = (compare a b).swap := by
  rcases Nat.lt_trichotomy a b with h | h | h
  · rw [Nat.compare_eq_lt.2 h, Nat.compare_eq_gt.2 h]
    rfl
  · subst h
    rw [Nat.compare_eq_eq.2 rfl]
    rfl
  · rw [Nat.compare_eq_gt.2 h, Nat.compare_eq_lt.2 h]
    rfl

theorem cmpChars_swap : ∀ x y, cmpChars y x = (cmpChars x y).swap
  | [], [] => rfl
  | [], _ :: _ => rfl
  | _ :: _, [] => rfl
  | c :: cs, d :: ds => by
    simp only [cmpChars]
    rw [nat_compare_swap c.toNat d.toNat]
    rcases compare c.toNat d.toNat <;> simp [Ordering.swap, cmpChars_swap cs ds]

theorem cmpChars_eq_iff : ∀ x y, cmpChars x y = .eq ↔ x = y
  | [], [] => by simp [cmpChars]
  | [], c :: cs => by simp [cmpChars]
  | c :: cs, [] => by simp [cmpChars]
  | c :: cs, d :: ds => by
    simp only [cmpChars]
    rcases hc : compare c.toNat d.toNat with _ | _ | _
    · simp only [List.cons.injEq]
      constructor
      · intro h
        exact absurd h (by simp)
      · rintro ⟨hcd, _⟩
        rw [hcd, Nat.compare_eq_eq.2 rfl] at hc
        cases hc
    · have hcd : c = d := Char.eq_of_val_eq (UInt32.toNat.inj (Nat.compare_eq_eq.1 hc))
      subst hcd
      simp [cmpChars_eq_iff cs ds]
    · simp only [List.cons.injEq]
      constructor
      · intro h
        exact absurd h (by simp)
      · rintro ⟨hcd, _⟩
        rw [hcd, Nat.compare_eq_eq.2 rfl] at hc
        cases hc

theorem cmpChars_lt_trans : ∀ {x y z : List Char},
    cmpChars x y = .lt → cmpChars y z = .lt → cmpChars x z = .lt
  | [], _ :: _, _ :: _, _, _ => rfl
  | [], [], _, h1, _ => by cases h1
  | _ :: _, [], _, h1, _ => by cases h1
  | [], _ :: _, [], _, h2 => by cases h2
  | _ :: _, _ :: _, [], _, h2 => by cases h2
  | a :: as_, b :: bs, c :: cs, h1, h2 => by
    simp only [cmpChars] at h1 h2 ⊢
    rcases hab : compare a.toNat b.toNat with _ | _ | _
    · rcases hbc : compare b.toNat c.toNat with _ | _ | _
      · have p1 := Nat.compare_eq_lt.1 hab
        have p2 := Nat.compare_eq_lt.1 hbc
        rw [Nat.compare_eq_lt.2 (by omega)]
      · have p1 := Nat.compare_eq_lt.1 hab
        have p2 := Nat.compare_eq_eq.1 hbc
        rw [Nat.compare_eq_lt.2 (by omega)]
      · rw [hbc] at h2
        exact Ordering.noConfusion h2
    · have p1 := Nat.compare_eq_eq.1 hab
      rw [hab] at h1
      rcases hbc : compare b.toNat c.toNat with _ | _ | _
      · have p2 := Nat.compare_eq_lt.1 hbc
        rw [Nat.compare_eq_lt.2 (by omega)]
      · rw [hbc] at h2
        have p2 := Nat.compare_eq_eq.1 hbc
        rw [show compare a.toNat c.toNat = Ordering.eq from Nat.compare_eq_eq.2 (by omega)]
        exact cmpChars_lt_trans h1 h2
      · rw [hbc] at h2
        exact Ordering.noConfusion h2
    · rw [hab] at h1
      exact Ordering.noConfusion h1

theorem cmpChars_le_total (x y : List Char) : cmpChars x y ≠ .gt ∨ cmpChars y x ≠ .gt := by
  rcases h : cmpChars x y with _ | _ | _
  · left
    simp
  · left
    simp
  · right
    rw [cmpChars_swap x y, h]
    simp [Ordering.swap]

theorem cmpChars_le_trans {x y z : List Char} (h1 : cmpChars x y ≠ .gt)
    (h2 : cmpChars y z ≠ .gt) : cmpChars x z ≠ .gt := by
  rcases hxy : cmpChars x y with _ | _ | _
  · rcases hyz : cmpChars y z with _ | _ | _
    · rw [cmpChars_lt_trans hxy hyz]
      simp
    · rw [← (cmpChars_eq_iff y z).1 hyz, hxy]
      simp
    · exact absurd hyz h2
  · rw [(cmpChars_eq_iff x y).1 hxy]
    exact h2
  · exact absurd hxy h1

instance rowLe_total : IsTotal TrainRow rowLe :=
  ⟨fun a b => cmpChars_le_total a.departure.data b.departure.data⟩

instance rowLe_trans : IsTrans TrainRow rowLe :=
  ⟨fun _ _ _ => cmpChars_le_trans⟩

theorem anySuffix_true_of_empty (f : List Char → Bool) (hf : f [] = true) :
    ∀ t, anySuffix f t = true
  | [] => hf
  | c :: cs => by simp [anySuffix, anySuffix_true_of_empty f hf cs]

/-- The pattern `"%"` (the one `get_trains` binds when no channel filter is
given) matches every channel name. -/
theorem likeMatch_percent (t : List Char) : likeMatch ['%'] t = true :=
  anySuffix_true_of_empty (fun s => likeMatch [] s) rfl t

theorem adapt_data (t : PyDateTime) : (adapt_datetime_iso t).data = t.isoChars := rfl

theorem get_trains_perm (db : DB) (arg : Option String) :
    (get_trains db arg).Perm
      ((db.rows.filter fun r => likeMatch (trainsPattern arg) r.channel_name.data).map
        decodeRow) :=
  (List.perm_insertionSort rowLe _).map decodeRow

theorem get_trains_sorted (db : DB) (hwf : db.WF) (arg : Option String) :
    (get_trains db arg).Pairwise depLe := by
  have hsorted := List.sorted_insertionSort rowLe
    (db.rows.filter fun r => likeMatch (trainsPattern arg) r.channel_name.data)
  rw [get_trains, List.pairwise_map]
  refine List.Pairwise.imp_of_mem ?_ hsorted
  intro a b ha hb hab
  have ha' : a ∈ db.rows :=
    (List.mem_filter.1 ((List.perm_insertionSort rowLe _).mem_iff.1 ha)).1
  have hb' : b ∈ db.rows :=
    (List.mem_filter.1 ((List.perm_insertionSort rowLe _).mem_iff.1 hb)).1
  obtain ⟨ta, hta, hdepa⟩ := hwf.2 a ha'
  obtain ⟨tb, htb, hdepb⟩ := hwf.2 b hb'
  rw [rowLe, hdepa, hdepb, adapt_data, adapt_data, iso_cmp ta tb hta htb] at hab
  simp only [depLe, decodeRow, hdepa, hdepb, iso_roundtrip ta hta, iso_roundtrip tb htb]
  exact hab

/-! ### Registry dict lemmas -/

theorem dictLookup_insert_self (k : Nat) (v : ArmedTask) :
    ∀ m, dictLookup k (dictInsert k v m) = some v
  | [] => by simp [dictInsert, dictLookup]
  | (k', v') :: m => by
    by_cases h : k' = k
    · simp [dictInsert, dictLookup, h]
    · simp [dictInsert, dictLookup, h, dictLookup_insert_self k v m]

theorem dictLookup_insert_ne (k i : Nat) (v : ArmedTask) (hne : k ≠ i) :
    ∀ m, dictLookup i (dictInsert k v m) = dictLookup i m
  | [] => by simp [dictInsert, dictLookup, if_neg hne]
  | (k', v') :: m => by
    by_cases h : k' = k
    · subst h
      simp [dictInsert, dictLookup, if_neg hne]
    · by_cases h2 : k' = i
      · subst h2
        simp [dictInsert, dictLookup, if_neg (Ne.symm hne)]
      · simp [dictInsert, dictLookup, h, h2, dictLookup_insert_ne k i v hne m]

theorem dictLookup_none_of_not_key (i : Nat) :
    ∀ m, i ∉ m.map Prod.fst → dictLookup i m = none
  | [], _ => rfl
  | (k', v') :: m, h => by
    simp only [List.map_cons, List.mem_cons, not_or] at h
    obtain ⟨h1, h2⟩ := h
    simp only [dictLookup]
    rw [if_neg (fun hk : k' = i => h1 hk.symm)]
    exact dictLookup_none_of_not_key i m h2

theorem dictPop_insert_same (k : Nat) (v : ArmedTask) :
    ∀ m, dictPop k (dictInsert k v m) = dictPop k m
  | [] => by simp [dictInsert, dictPop]
  | (k', v') :: m => by
    by_cases h : k' = k
    · simp [dictInsert, dictPop, h]
    · simp [dictInsert, dictPop, h, dictPop_insert_same k v m]

theorem dictLookup_pop_none (i : Nat) :
    ∀ m, (m.map Prod.fst).Nodup → dictLookup i (dictPop i m) = none
  | [], _ => rfl
  | (k', v') :: m, hnd => by
    simp only [List.map_cons, List.nodup_cons] at hnd
    by_cases h : k' = i
    · subst h
      simp only [dictPop, if_pos rfl]
      exact dictLookup_none_of_not_key k' m hnd.1
    · simp only [dictPop, if_neg h, dictLookup, if_neg h]
      exact dictLookup_pop_none i m hnd.2

/-! ### Reconciliation frame lemmas -/

theorem loadOne_preserve (now : PyDateTime) (i : Nat) (st st1 : SchedState) (q : FetchedRow)
    (hsafe : StepSafe now i q) (hstep : loadOneTrain now st q = .ok st1) :
    dictLookup i st1.tasks = dictLookup i st.tasks ∧
      ∀ r : TrainRow, r ∈ st.db.rows → r.id = i → r ∈ st1.db.rows := by
  obtain ⟨qid, qgame, qch, qdep, qrec⟩ := q
  rcases qdep with _ | dep
  · simp only [loadOneTrain] at hstep
    cases hstep
  · simp only [loadOneTrain] at hstep
    by_cases hpast : PyDateTime.cmp dep now = .lt
    · rw [if_pos hpast] at hstep
      by_cases honce : qrec = "ONCE"
      · rw [if_pos honce] at hstep
        have hne : qid ≠ i := by
          rcases hsafe with h | ⟨dep', _, _, hr'⟩
          · exact h
          · exact absurd honce hr'
        simp only [remove_train] at hstep
        by_cases hex : (st.db.rows.filter fun r => r.id = qid) ≠ []
        · rw [if_pos hex] at hstep
          injection hstep with hst1
          subst hst1
          refine ⟨rfl, fun r hr hri => ?_⟩
          refine List.mem_filter.2 ⟨hr, ?_⟩
          simp only [decide_eq_true_eq]
          intro hcontr
          exact hne (by rw [← hcontr, hri])
        · rw [if_neg hex] at hstep
          cases hstep
      · rw [if_neg honce] at hstep
        injection hstep with hst1
        subst hst1
        exact ⟨rfl, fun r hr _ => hr⟩
    · rw [if_neg hpast] at hstep
      have hne : qid ≠ i := by
        rcases hsafe with h | ⟨dep', hd', hp', _⟩
        · exact h
        · simp only at hd'
          injection hd' with h'
          subst h'
          exact absurd hp' hpast
      injection hstep with hst1
      subst hst1
      exact ⟨dictLookup_insert_ne qid i _ hne st.tasks, fun r hr _ => hr⟩

theorem loadTrainsFrom_preserve (now : PyDateTime) (i : Nat) :
    ∀ (rows : List FetchedRow) (st st' : SchedState),
      loadTrainsFrom now st rows = .ok st' →
      (∀ q ∈ rows, StepSafe now i q) →
      dictLookup i st'.tasks = dictLookup i st.tasks ∧
        ∀ r : TrainRow, r ∈ st.db.rows → r.id = i → r ∈ st'.db.rows := by
  intro rows
  induction rows with
  | nil =>
    intro st st' hok _
    rw [loadTrainsFrom] at hok
    injection hok with h
    subst h
    exact ⟨rfl, fun r hr _ => hr⟩
  | cons q rest ih =>
    intro st st' hok hsafe
    rw [loadTrainsFrom] at hok
    rcases hstep : loadOneTrain now st q with e | st1
    · rw [hstep] at hok
      cases hok
    · rw [hstep] at hok
      obtain ⟨h1, h2⟩ := loadOne_preserve now i st st1 q (hsafe q (by simp)) hstep
      obtain ⟨h1', h2'⟩ := ih st1 st' hok (fun p hp => hsafe p (by simp [hp]))
      exact ⟨h1'.trans h1, fun r hr hri => h2' r (h2 r hr hri) hri⟩

theorem get_trains_all_decodable (db : DB) (hwf : db.WF) (arg : Option String) :
    ((get_trains db arg).all fun r => r.departure.isSome) = true := by
  rw [List.all_eq_true]
  intro q hq
  rw [get_trains] at hq
  obtain ⟨r', hr', rfl⟩ := List.mem_map.1 hq
  have hmem : r' ∈ db.rows :=
    (List.mem_filter.1 ((List.perm_insertionSort rowLe _).mem_iff.1 hr')).1
  obtain ⟨t, ht, hdep⟩ := hwf.2 r' hmem
  simp [decodeRow, hdep, iso_roundtrip t ht]

theorem fetched_id_unique (db : DB) (hwf : db.WF) (row : TrainRow) (hmem : row ∈ db.rows)
    (q : FetchedRow) (hq : q ∈ get_trains db none) (hid : q.id = row.id) :
    q = decodeRow row := by
  rw [get_trains] at hq
  obtain ⟨r', hr', hq'⟩ := List.mem_map.1 hq
  have hr'' : r' ∈ db.rows :=
    (List.mem_filter.1 ((List.perm_insertionSort rowLe _).mem_iff.1 hr')).1
  have hrr : r' = row := by
    by_contra hne
    have hneid := (List.Pairwise.forall (fun _ _ h => Ne.symm h) hwf.1) hr'' hmem hne
    have hqid : r'.id = q.id := by
      rw [← hq']
      rfl
    exact hneid (by rw [hqid, hid])
  rw [← hq', hrr]

/-- C7: every persisted entry with recurrence WEEKLY whose fire time is
strictly before `now` at reconciliation time is left in the store
unchanged, and reconciliation registers no delayed action for it. -/
theorem load_keeps_past_weekly (now : PyDateTime) (st st' : SchedState) (row : TrainRow)
    (dep : PyDateTime) (hwf : st.db.WF) (hmem : row ∈ st.db.rows)
    (hrec : row.recurrance = "WEEKLY") (hdec : convert_datetime row.departure = some dep)
    (hpast : PyDateTime.cmp dep now = .lt)
    (hok : load_scheduled_trains now st = .ok st') :
    row ∈ st'.db.rows ∧ dictLookup row.id st'.tasks = dictLookup row.id st.tasks := by
  rw [load_scheduled_trains, if_pos (get_trains_all_decodable st.db hwf none)] at hok
  have hsafe : ∀ q ∈ get_trains st.db none, StepSafe now row.id q := by
    intro q hq
    by_cases hid : q.id = row.id
    · have hq' : q = decodeRow row := fetched_id_unique st.db hwf row hmem q hq hid
      right
      refine ⟨dep, ?_, hpast, ?_⟩
      · rw [hq']
        exact hdec
      · rw [hq']
        show row.recurrance ≠ "ONCE"
        rw [hrec]
        decide
    · left
      exact hid
  obtain ⟨h1, h2⟩ := loadTrainsFrom_preserve now row.id (get_trains st.db none) st st' hok hsafe
  exact ⟨h2 row hmem rfl, h1⟩

/-- C2 (amended): a persisted DAILY entry whose fire time is strictly
before `now` at reconciliation time is skipped exactly like a WEEKLY one —
it stays in the store with its stored fire time unchanged and no delayed
action is registered for it; no roll-forward to today's date happens. -/
theorem load_keeps_past_daily_unarmed (now : PyDateTime) (st st' : SchedState) (row : TrainRow)
    (dep : PyDateTime) (hwf : st.db.WF) (hmem : row ∈ st.db.rows)
    (hrec : row.recurrance = "DAILY") (hdec : convert_datetime row.departure = some dep)
    (hpast : PyDateTime.cmp dep now = .lt)
    (hok : load_scheduled_trains now st = .ok st') :
    row ∈ st'.db.rows ∧ dictLookup row.id st'.tasks = dictLookup row.id st.tasks := by
  rw [load_scheduled_trains, if_pos (get_trains_all_decodable st.db hwf none)] at hok
  have hsafe : ∀ q ∈ get_trains st.db none, StepSafe now row.id q := by
    intro q hq
    by_cases hid : q.id = row.id
    · have hq' : q = decodeRow row := fetched_id_unique st.db hwf row hmem q hq hid
      right
      refine ⟨dep, ?_, hpast, ?_⟩
      · rw [hq']
        exact hdec
      · rw [hq']
        show row.recurrance ≠ "ONCE"
        rw [hrec]
        decide
    · left
      exact hid
  obtain ⟨h1, h2⟩ := loadTrainsFrom_preserve now row.id (get_trains st.db none) st st' hok hsafe
  exact ⟨h2 row hmem rfl, h1⟩

/-! ### Claim theorems -/

/-- C4 (amended): `get_trains` returns, in ascending fire-time order,
exactly the rows whose channel name matches the bound pattern under SQL
LIKE semantics (ASCII case-insensitive, `%`/`_` wildcards); with no
channel given — or an empty string, which Python treats as falsy — the
pattern is `%` and every row is returned. -/
theorem get_trains_like_filter_sorted (db : DB) (hwf : db.WF) (arg : Option String) :
    (get_trains db arg).Perm
        ((db.rows.filter fun r => likeMatch (trainsPattern arg) r.channel_name.data).map
          decodeRow) ∧
      (get_trains db none).Perm (db.rows.map decodeRow) ∧
      (get_trains db arg).Pairwise depLe := by
  refine ⟨get_trains_perm db arg, ?_, get_trains_sorted db hwf arg⟩
  have hall : (db.rows.filter fun r => likeMatch (trainsPattern none) r.channel_name.data)
      = db.rows := by
    apply List.filter_eq_self.2
    intro r _
    exact likeMatch_percent r.channel_name.data
  have := get_trains_perm db none
  rwa [hall] at this

/-- C4 counterexample: the stored channel name "general" differs from the
query "GENERAL", yet the row is returned — the filter is SQLite LIKE
(case-insensitive), not exact equality. -/
theorem get_trains_case_insensitive_cex :
    get_trains
        ⟨[⟨1, none, "general", adapt_datetime_iso ⟨2024,6,1,10,0,0,0⟩, "ONCE"⟩], 2, [], 1⟩
        (some "GENERAL") =
      [⟨1, none, "general", some ⟨2024,6,1,10,0,0,0⟩, "ONCE"⟩] ∧
    "general" ≠ "GENERAL" := ⟨rfl, by decide⟩

/-- C4 witness: the amended theorem applied to a two-row store. -/
theorem get_trains_like_filter_sorted_witness :
    (get_trains
        ⟨[⟨1, none, "general", adapt_datetime_iso ⟨2024,6,2,10,0,0,0⟩, "ONCE"⟩,
          ⟨2, none, "other", adapt_datetime_iso ⟨2024,6,1,10,0,0,0⟩, "ONCE"⟩], 3, [], 1⟩
        (some "general")).Perm
        (((⟨[⟨1, none, "general", adapt_datetime_iso ⟨2024,6,2,10,0,0,0⟩, "ONCE"⟩,
          ⟨2, none, "other", adapt_datetime_iso ⟨2024,6,1,10,0,0,0⟩, "ONCE"⟩], 3, [], 1⟩ : DB).rows.filter
            fun r => likeMatch (trainsPattern (some "general")) r.channel_name.data).map
          decodeRow) ∧
      (get_trains
        ⟨[⟨1, none, "general", adapt_datetime_iso ⟨2024,6,2,10,0,0,0⟩, "ONCE"⟩,
          ⟨2, none, "other", adapt_datetime_iso ⟨2024,6,1,10,0,0,0⟩, "ONCE"⟩], 3, [], 1⟩ none).Perm
        ((⟨[⟨1, none, "general", adapt_datetime_iso ⟨2024,6,2,10,0,0,0⟩, "ONCE"⟩,
          ⟨2, none, "other", adapt_datetime_iso ⟨2024,6,1,10,0,0,0⟩, "ONCE"⟩], 3, [], 1⟩ : DB).rows.map
          decodeRow) ∧
      (get_trains
        ⟨[⟨1, none, "general", adapt_datetime_iso ⟨2024,6,2,10,0,0,0⟩, "ONCE"⟩,
          ⟨2, none, "other", adapt_datetime_iso ⟨2024,6,1,10,0,0,0⟩, "ONCE"⟩], 3, [], 1⟩
        (some "general")).Pairwise depLe :=
  get_trains_like_filter_sorted
    ⟨[⟨1, none, "general", adapt_datetime_iso ⟨2024,6,2,10,0,0,0⟩, "ONCE"⟩,
      ⟨2, none, "other", adapt_datetime_iso ⟨2024,6,1,10,0,0,0⟩, "ONCE"⟩], 3, [], 1⟩
    ⟨by simp, by
      intro r hr
      simp only [List.mem_cons, List.not_mem_nil, or_false] at hr
      rcases hr with rfl | rfl
      · exact ⟨⟨2024,6,2,10,0,0,0⟩, by decide, rfl⟩
      · exact ⟨⟨2024,6,1,10,0,0,0⟩, by decide, rfl⟩⟩
    (some "general")

/-- C9: adding an entry and then listing yields the entry with exactly the
fire time that was inserted — the ISO adapter/converter pair round-trips
the instant, fractional seconds included. -/
theorem add_roundtrip_in_listing (db : DB) (game : Option String) (ch : String)
    (t : PyDateTime) (s : String) (rc : SupportedTrainRecurrance)
    (hv : t.Valid) (hs : recurranceFromString s = some rc) :
    (add_train_to_table db game ch t s).1 = .ok db.nextId ∧
      (⟨db.nextId, game, ch, some t, rc.name⟩ : FetchedRow) ∈
        get_trains (add_train_to_table db game ch t s).2 none := by
  simp only [add_train_to_table, hs]
  refine ⟨by trivial, ?_⟩
  rw [get_trains]
  apply List.mem_map.2
  refine ⟨⟨db.nextId, game, ch, adapt_datetime_iso t, rc.name⟩, ?_, ?_⟩
  · apply (List.perm_insertionSort rowLe _).mem_iff.2
    apply List.mem_filter.2
    refine ⟨by simp, ?_⟩
    show likeMatch (trainsPattern none) ch.data = true
    exact likeMatch_percent ch.data
  · simp [decodeRow, iso_roundtrip t hv]

/-- C9 witness: the round-trip theorem applied to a microsecond-precision
fire time on an empty store. -/
theorem add_roundtrip_in_listing_witness :
    (add_train_to_table ⟨[], 1, [], 1⟩ (some "HL3") "general" ⟨2024,6,1,10,30,5,123456⟩
        "once").1 = .ok (⟨[], 1, [], 1⟩ : DB).nextId ∧
      (⟨(⟨[], 1, [], 1⟩ : DB).nextId, some "HL3", "general", some ⟨2024,6,1,10,30,5,123456⟩,
          SupportedTrainRecurrance.ONCE.name⟩ : FetchedRow) ∈
        get_trains (add_train_to_table ⟨[], 1, [], 1⟩ (some "HL3") "general"
          ⟨2024,6,1,10,30,5,123456⟩ "once").2 none :=
  add_roundtrip_in_listing ⟨[], 1, [], 1⟩ (some "HL3") "general" ⟨2024,6,1,10,30,5,123456⟩
    "once" .ONCE (by decide) rfl

/-- C10: `add_train_to_table` accepts a recurrence string exactly when it
equals ONCE, WEEKLY or DAILY up to letter case, and any other string makes
the enum call raise `ValueError` before the store connection is opened,
leaving the store unchanged. -/
theorem recurrance_gate_case_insensitive (db : DB) (game : Option String) (ch : String)
    (t : PyDateTime) (s : String) :
    ((recurranceFromString s).isSome ↔
        (pyLower s = "once" ∨ pyLower s = "weekly" ∨ pyLower s = "daily")) ∧
      (recurranceFromString s = none →
        add_train_to_table db game ch t s = (.error .valueError, db)) := by
  constructor
  · have e1 : pyLower "ONCE" = "once" := rfl
    have e2 : pyLower "WEEKLY" = "weekly" := rfl
    have e3 : pyLower "DAILY" = "daily" := rfl
    unfold recurranceFromString
    split_ifs with h1 h2 h3 h4 h5 h6 <;> simp_all
  · intro h
    simp only [add_train_to_table, h]

/-- C5: `remove_train` raises `TypeError` on a non-integer id and
`ValueError` on an integer id with no matching row, and in both cases
returns with the store unchanged. -/
theorem remove_train_error_cases (db : DB) (v : PyVal) :
    ((∀ n, v ≠ PyVal.int n) → remove_train db v = (.error .typeError, db)) ∧
      ∀ n, v = PyVal.int n → (db.rows.filter fun r => r.id = n) = [] →
        remove_train db v = (.error .valueError, db) := by
  constructor
  · intro h
    cases v with
    | int n => exact absurd rfl (h n)
    | str s => rfl
    | pynone => rfl
  · intro n hv hnone
    subst hv
    simp only [remove_train, hnone, ne_eq, not_true_eq_false, if_false]

/-- C6: `cancel_train` on an id absent from the live registry reports
not-found and leaves the whole state (store included) untouched, even if a
row with that id exists; on a registered id it cancels the task and
removes the row from the store. -/
theorem cancel_train_registry_gate (st : SchedState) (i : Nat) :
    (dictLookup i st.tasks = none → cancel_train i st = (.ok (.notFound i), st)) ∧
      ∀ task, dictLookup i st.tasks = some task →
        (st.db.rows.filter fun r => r.id = i) ≠ [] →
        cancel_train i st =
          (.ok (.removed i),
            ⟨{ st.db with rows := st.db.rows.filter fun r => ¬r.id = i },
              dictInsert i
                (if task.status = .pending then { task with status := .cancelled } else task)
                st.tasks⟩) := by
  constructor
  · intro h
    rw [cancel_train, h]
  · intro task hlk hex
    rw [cancel_train, hlk]
    simp only [remove_train, if_pos hex]

/-- C8 (amended): once the completion callback has run (the id is gone
from the registry), invoking the callback again raises `KeyError` instead
of being a no-op, while `cancel_train` after completion does report
not-found without error and without touching the store. -/
theorem completion_not_idempotent (st : SchedState) (i : Nat) (rc : String) :
    (dictLookup i st.tasks = none →
        train_completion_callback i rc st = (.error .keyError, st)) ∧
      (dictLookup i st.tasks = none → cancel_train i st = (.ok (.notFound i), st)) := by
  constructor
  · intro h
    rw [train_completion_callback, h]
  · intro h
    rw [cancel_train, h]

/-- C8 counterexample: a concrete ONCE train whose completion callback has
run once; the second invocation raises `KeyError` rather than being a
no-op. -/
theorem double_completion_raises_cex :
    train_completion_callback 1 "ONCE"
        ⟨⟨[⟨1, some "HL3", "general", adapt_datetime_iso ⟨2024,6,1,10,0,0,0⟩, "ONCE"⟩], 2,
          [⟨1, 77, "general"⟩], 2⟩,
          [(1, ⟨some "HL3", ⟨2024,6,1,10,0,0,0⟩, some 77, .taskDone, some (1, "ONCE")⟩)]⟩ =
      (.ok (), ⟨⟨[], 2, [⟨1, 77, "general"⟩], 2⟩, []⟩) ∧
    train_completion_callback 1 "ONCE" ⟨⟨[], 2, [⟨1, 77, "general"⟩], 2⟩, []⟩ =
      (.error .keyError, ⟨⟨[], 2, [⟨1, 77, "general"⟩], 2⟩, []⟩) := ⟨rfl, rfl⟩

/-- C3 (amended): only a task registered with the completion callback
attached — which is how startup reconciliation arms tasks — is torn down
on completion: for a registered task whose callback captured `(i, ONCE)`,
completion removes id `i` from the registry and the row from the store.
A task armed by `schedule_train` carries no callback, so its completion
removes nothing (see the counterexample). -/
theorem complete_with_once_callback_removes (st : SchedState) (i : Nat) (task : ArmedTask)
    (hnd : (st.tasks.map Prod.fst).Nodup)
    (hlk : dictLookup i st.tasks = some task)
    (hcb : task.callback = some (i, "ONCE"))
    (hex : (st.db.rows.filter fun r => r.id = i) ≠ []) :
    (completeTask i st).1 = .ok () ∧
      dictLookup i (completeTask i st).2.tasks = none ∧
      ∀ r ∈ (completeTask i st).2.db.rows, r.id ≠ i := by
  simp only [completeTask, hlk, hcb, train_completion_callback, dictLookup_insert_self,
    if_pos rfl]
  simp only [remove_train, if_pos hex]
  refine ⟨rfl, ?_, ?_⟩
  · show dictLookup i (dictPop i (dictInsert i _ st.tasks)) = none
    rw [dictPop_insert_same]
    exact dictLookup_pop_none i st.tasks hnd
  · intro r hr
    have hmem := (List.mem_filter.1 hr).2
    simp only [decide_eq_true_eq] at hmem
    exact hmem

/-- C3 witness: the completion path applied to a reconciliation-style
registry entry (callback attached) over a one-row store. -/
theorem complete_with_once_callback_removes_witness :
    (completeTask 1
        ⟨⟨[⟨1, some "HL3", "general", adapt_datetime_iso ⟨2024,6,1,10,0,0,0⟩, "ONCE"⟩], 2,
          [⟨1, 77, "general"⟩], 2⟩,
          [(1, ⟨some "HL3", ⟨2024,6,1,10,0,0,0⟩, some 77, .taskDone,
            some (1, "ONCE")⟩)]⟩).1 = .ok () ∧
      dictLookup 1
        (completeTask 1
          ⟨⟨[⟨1, some "HL3", "general", adapt_datetime_iso ⟨2024,6,1,10,0,0,0⟩, "ONCE"⟩], 2,
            [⟨1, 77, "general"⟩], 2⟩,
            [(1, ⟨some "HL3", ⟨2024,6,1,10,0,0,0⟩, some 77, .taskDone,
              some (1, "ONCE")⟩)]⟩).2.tasks = none ∧
      ∀ r ∈ (completeTask 1
          ⟨⟨[⟨1, some "HL3", "general", adapt_datetime_iso ⟨2024,6,1,10,0,0,0⟩, "ONCE"⟩], 2,
            [⟨1, 77, "general"⟩], 2⟩,
            [(1, ⟨some "HL3", ⟨2024,6,1,10,0,0,0⟩, some 77, .taskDone,
              some (1, "ONCE")⟩)]⟩).2.db.rows, r.id ≠ 1 :=
  complete_with_once_callback_removes
    ⟨⟨[⟨1, some "HL3", "general", adapt_datetime_iso ⟨2024,6,1,10,0,0,0⟩, "ONCE"⟩], 2,
      [⟨1, 77, "general"⟩], 2⟩,
      [(1, ⟨some "HL3", ⟨2024,6,1,10,0,0,0⟩, some 77, .taskDone, some (1, "ONCE")⟩)]⟩
    1 ⟨some "HL3", ⟨2024,6,1,10,0,0,0⟩, some 77, .taskDone, some (1, "ONCE")⟩
    (by simp) rfl rfl (by decide)

/-- C3 counterexample: a ONCE train scheduled through `schedule_train`
(which attaches no completion callback) still has its row in the store —
and its id in the registry — after the task completes. -/
theorem explicit_once_not_removed_cex :
    schedule_train ⟨2024,6,1,9,0,0,0⟩ 77 "general" "10:00" (some "HL3") "ONCE" none
        ⟨⟨[], 1, [], 1⟩, []⟩ =
      .ok ([Msg.allSet ⟨2024,6,1,10,0,0,0⟩ .ONCE], 1,
        ⟨⟨[⟨1, some "HL3", "general", adapt_datetime_iso ⟨2024,6,1,10,0,0,0⟩, "ONCE"⟩], 2,
          [⟨1, 77, "general"⟩], 2⟩,
          [(1, ⟨some "HL3", ⟨2024,6,1,10,0,0,0⟩, some 77, .pending, none⟩)]⟩) ∧
    completeTask 1
        ⟨⟨[⟨1, some "HL3", "general", adapt_datetime_iso ⟨2024,6,1,10,0,0,0⟩, "ONCE"⟩], 2,
          [⟨1, 77, "general"⟩], 2⟩,
          [(1, ⟨some "HL3", ⟨2024,6,1,10,0,0,0⟩, some 77, .pending, none⟩)]⟩ =
      (.ok (),
        ⟨⟨[⟨1, some "HL3", "general", adapt_datetime_iso ⟨2024,6,1,10,0,0,0⟩, "ONCE"⟩], 2,
          [⟨1, 77, "general"⟩], 2⟩,
          [(1, ⟨some "HL3", ⟨2024,6,1,10,0,0,0⟩, some 77, .taskDone, none⟩)]⟩) ∧
    get_trains
        ⟨[⟨1, some "HL3", "general", adapt_datetime_iso ⟨2024,6,1,10,0,0,0⟩, "ONCE"⟩], 2,
          [⟨1, 77, "general"⟩], 2⟩ none =
      [⟨1, some "HL3", "general", some ⟨2024,6,1,10,0,0,0⟩, "ONCE"⟩] := ⟨rfl, rfl, rfl⟩

/-- C1: `schedule_train` with a fire time strictly in the past sends the
"cannot schedule train for the past" error to the caller but, lacking an
early return, still arms the task, persists the row — which then shows up
in `get_trains` — and registers the task. -/
theorem schedule_past_still_persists_and_arms :
    schedule_train ⟨2024,6,1,12,0,0,0⟩ 77 "general" "10:00" (some "HL3") "ONCE" none
        ⟨⟨[], 1, [], 1⟩, []⟩ =
      .ok ([Msg.cannotSchedulePast ⟨2024,6,1,10,0,0,0⟩, Msg.allSet ⟨2024,6,1,10,0,0,0⟩ .ONCE],
        1,
        ⟨⟨[⟨1, some "HL3", "general", adapt_datetime_iso ⟨2024,6,1,10,0,0,0⟩, "ONCE"⟩], 2,
          [⟨1, 77, "general"⟩], 2⟩,
          [(1, ⟨some "HL3", ⟨2024,6,1,10,0,0,0⟩, some 77, .pending, none⟩)]⟩) ∧
    get_trains
        ⟨[⟨1, some "HL3", "general", adapt_datetime_iso ⟨2024,6,1,10,0,0,0⟩, "ONCE"⟩], 2,
          [⟨1, 77, "general"⟩], 2⟩ none =
      [⟨1, some "HL3", "general", some ⟨2024,6,1,10,0,0,0⟩, "ONCE"⟩] := ⟨rfl, rfl⟩

/-- C2 counterexample: a DAILY entry whose fire time (10:00) has already
passed today (now 12:00, same calendar day): reconciliation arms nothing
(the registry stays empty) and the stored fire time is not recomputed —
the state is returned unchanged, contradicting the claimed
roll-forward-and-fire. -/
theorem load_past_daily_not_rearmed_cex :
    load_scheduled_trains ⟨2024,6,1,12,0,0,0⟩
        ⟨⟨[⟨1, some "HL3", "general", adapt_datetime_iso ⟨2024,6,1,10,0,0,0⟩, "DAILY"⟩], 2,
          [⟨1, 77, "general"⟩], 2⟩, []⟩ =
      .ok ⟨⟨[⟨1, some "HL3", "general", adapt_datetime_iso ⟨2024,6,1,10,0,0,0⟩, "DAILY"⟩], 2,
        [⟨1, 77, "general"⟩], 2⟩, []⟩ := rfl

/-- C2 witness: the amended theorem applied to the same past DAILY entry. -/
theorem load_keeps_past_daily_unarmed_witness :
    (⟨1, some "HL3", "general", adapt_datetime_iso ⟨2024,6,1,10,0,0,0⟩, "DAILY"⟩ : TrainRow) ∈
        (⟨⟨[⟨1, some "HL3", "general", adapt_datetime_iso ⟨2024,6,1,10,0,0,0⟩, "DAILY"⟩], 2,
          [⟨1, 77, "general"⟩], 2⟩, []⟩ : SchedState).db.rows ∧
      dictLookup 1
          (⟨⟨[⟨1, some "HL3", "general", adapt_datetime_iso ⟨2024,6,1,10,0,0,0⟩, "DAILY"⟩], 2,
            [⟨1, 77, "general"⟩], 2⟩, []⟩ : SchedState).tasks =
        dictLookup 1
          (⟨⟨[⟨1, some "HL3", "general", adapt_datetime_iso ⟨2024,6,1,10,0,0,0⟩, "DAILY"⟩], 2,
            [⟨1, 77, "general"⟩], 2⟩, []⟩ : SchedState).tasks :=
  load_keeps_past_daily_unarmed ⟨2024,6,1,12,0,0,0⟩
    ⟨⟨[⟨1, some "HL3", "general", adapt_datetime_iso ⟨2024,6,1,10,0,0,0⟩, "DAILY"⟩], 2,
      [⟨1, 77, "general"⟩], 2⟩, []⟩
    ⟨⟨[⟨1, some "HL3", "general", adapt_datetime_iso ⟨2024,6,1,10,0,0,0⟩, "DAILY"⟩], 2,
      [⟨1, 77, "general"⟩], 2⟩, []⟩
    ⟨1, some "HL3", "general", adapt_datetime_iso ⟨2024,6,1,10,0,0,0⟩, "DAILY"⟩
    ⟨2024,6,1,10,0,0,0⟩
    ⟨by simp, by
      intro r hr
      simp only [List.mem_singleton] at hr
      subst hr
      exact ⟨⟨2024,6,1,10,0,0,0⟩, by decide, rfl⟩⟩
    (by simp) rfl (iso_roundtrip ⟨2024,6,1,10,0,0,0⟩ (by decide)) (by decide) rfl

/-- C7 witness: the skip-and-keep theorem applied to a past WEEKLY entry. -/
theorem load_keeps_past_weekly_witness :
    (⟨1, some "HL3", "general", adapt_datetime_iso ⟨2024,6,1,10,0,0,0⟩, "WEEKLY"⟩ : TrainRow) ∈
        (⟨⟨[⟨1, some "HL3", "general", adapt_datetime_iso ⟨2024,6,1,10,0,0,0⟩, "WEEKLY"⟩], 2,
          [⟨1, 77, "general"⟩], 2⟩, []⟩ : SchedState).db.rows ∧
      dictLookup 1
          (⟨⟨[⟨1, some "HL3", "general", adapt_datetime_iso ⟨2024,6,1,10,0,0,0⟩, "WEEKLY"⟩], 2,
            [⟨1, 77, "general"⟩], 2⟩, []⟩ : SchedState).tasks =
        dictLookup 1
          (⟨⟨[⟨1, some "HL3", "general", adapt_datetime_iso ⟨2024,6,1,10,0,0,0⟩, "WEEKLY"⟩], 2,
            [⟨1, 77, "general"⟩], 2⟩, []⟩ : SchedState).tasks :=
  load_keeps_past_weekly ⟨2024,6,1,12,0,0,0⟩
    ⟨⟨[⟨1, some "HL3", "general", adapt_datetime_iso ⟨2024,6,1,10,0,0,0⟩, "WEEKLY"⟩], 2,
      [⟨1, 77, "general"⟩], 2⟩, []⟩
    ⟨⟨[⟨1, some "HL3", "general", adapt_datetime_iso ⟨2024,6,1,10,0,0,0⟩, "WEEKLY"⟩], 2,
      [⟨1, 77, "general"⟩], 2⟩, []⟩
    ⟨1, some "HL3", "general", adapt_datetime_iso ⟨2024,6,1,10,0,0,0⟩, "WEEKLY"⟩
    ⟨2024,6,1,10,0,0,0⟩
    ⟨by simp, by
      intro r hr
      simp only [List.mem_singleton] at hr
      subst hr
      exact ⟨⟨2024,6,1,10,0,0,0⟩, by decide, rfl⟩⟩
    (by simp) rfl (iso_roundtrip ⟨2024,6,1,10,0,0,0⟩ (by decide)) (by decide) rfl
